import Mathlib

/-!
Shallow embedding of `src/visualiser.py` (class `VideoGenerator`) and proofs
about its colour-table construction, frame counter, file naming, directory
lifecycle and external-encoder invocations.

Machine-level conventions: Python numbers appearing in colour tuples are
modelled as rationals; Python dicts are modelled as insertion-ordered
association lists; the file system is modelled by the sets of existing
directories and files (content is irrelevant to every claim); the external
`ffmpeg` binary is modelled by an environment giving, for each command, the
exit status `subprocess.call` would return.
-/

/-- A Python value appearing as a colour-scheme entry: either a tuple of
numeric components or a non-tuple value (the code stores those unchanged),
modelled as a rational scalar. -/
inductive ColourValue where
  | tup (components : List ℚ)
  | scalar (v : ℚ)
deriving DecidableEq, Repr

/-- Python exceptions raised by the library calls the code uses: `max()` on an
empty sequence raises `ValueError`; `subprocess.call` raises
`FileNotFoundError` when the executable cannot be found. -/
inductive PyError where
  | valueError
  | fileNotFoundError
deriving DecidableEq, Repr

deriving instance DecidableEq for Except

/-- Lines 19–23 of `visualiser.py`: `tuple(v / 255 for v in tup)` when the
value is a tuple, otherwise the value is stored unchanged. -/
def normalizeValue : ColourValue → ColourValue
  | .tup comps => .tup (comps.map (fun v => v / 255))
  | .scalar v => .scalar v

/-- Python dict assignment `d[k] = v` on an insertion-ordered association
list: overwrites the value of an existing key in place, otherwise appends the
new key at the end. -/
def dictInsert (d : List (ℕ × ColourValue)) (k : ℕ) (v : ColourValue) :
    List (ℕ × ColourValue) :=
  if k ∈ d.map Prod.fst then
    d.map (fun p => if p.1 = k then (k, v) else p)
  else d ++ [(k, v)]

/-- Python `d.get(k, default)`. -/
def dictGet (d : List (ℕ × ColourValue)) (k : ℕ) (dflt : ColourValue) : ColourValue :=
  match d.find? (fun p => p.1 == k) with
  | some p => p.2
  | none => dflt

/-- Lines 17–23 of `__init__`: `self.colour_scheme = {}` followed by the
normalisation loop over `colour_scheme.items()`. -/
def normalizeScheme (colour_scheme : List (ℕ × ColourValue)) : List (ℕ × ColourValue) :=
  colour_scheme.foldl (fun d p => dictInsert d p.1 (normalizeValue p.2)) []

/-- Python `max()` on a list: raises `ValueError` on an empty sequence. -/
def pyMax (l : List ℕ) : Except PyError ℕ :=
  match l with
  | [] => .error .valueError
  | x :: xs => .ok (xs.foldl max x)

/-- Lines 45–51, `create_colormap`: `max_index = max(self.colour_scheme.keys())`,
then the dense list `[self.colour_scheme.get(i, (0, 0, 0)) for i in
range(max_index + 1)]` handed to `ListedColormap`. -/
def create_colormap (colour_scheme : List (ℕ × ColourValue)) :
    Except PyError (List ColourValue) :=
  match pyMax (colour_scheme.map Prod.fst) with
  | .error e => .error e
  | .ok max_index =>
    .ok ((List.range (max_index + 1)).map (fun i => dictGet colour_scheme i (.tup [0, 0, 0])))

/-- The attributes of a `VideoGenerator` instance (lines 11–14, 17, 25–26). -/
structure VideoGenerator where
  name : String
  output_folder : String
  frame_folder : String
  frame_count : ℕ
  colour_scheme : List (ℕ × ColourValue)
  n_colours : ℕ
  cmap : List ColourValue
deriving DecidableEq, Repr

/-- The frame directory `f"{output_folder}/{name}/{frame_folder}"` as path
segments (the spec makes slash-free `name`/`output_folder` the caller's
responsibility). -/
def VideoGenerator.framePath (vg : VideoGenerator) : List String :=
  [vg.output_folder, vg.name, vg.frame_folder]

/-- The run directory `f"{output_folder}/{name}"` as a string, as interpolated
into the encoder commands. -/
def VideoGenerator.runPath (vg : VideoGenerator) : String :=
  vg.output_folder ++ "/" ++ vg.name

/-- File-system model: the set of existing directories (as segment lists) and
the set of existing files (directory segments paired with a base name).  Only
existence is modelled; no claim depends on file content. -/
structure FS where
  dirs : List (List String)
  files : List (List String × String)
deriving DecidableEq, Repr

/-- Create one directory if absent. -/
def mkdirOne (ds : List (List String)) (p : List String) : List (List String) :=
  if p ∈ ds then ds else ds ++ [p]

/-- `os.makedirs(path, exist_ok=True)`: creates the directory and any missing
parents; no effect and no error when they already exist. -/
def makedirs (path : List String) (fs : FS) : FS :=
  let levels := (List.range path.length).map (fun i => path.take (i + 1))
  { fs with dirs := levels.foldl mkdirOne fs.dirs }

/-- `plt.savefig(path)`: creates or overwrites the file; with only existence
modelled, overwriting an existing file leaves the set unchanged. -/
def writeFile (fs : FS) (f : List String × String) : FS :=
  { fs with files := if f ∈ fs.files then fs.files else fs.files ++ [f] }

/-- Matching a base name against the glob pattern `*.png` used at line 42: the
name ends in `.png`, and — because glob's `*` does not match a leading dot —
does not start with `.`. -/
def matchesPngGlob (base : String) : Bool :=
  decide (['.', 'p', 'n', 'g'] <:+ base.data)
    && !(base.data.head? == some ('.' : Char))

/-- Lines 39–43, `clear_frame_folder`: `os.remove` every file in the frame
folder matching `*.png`. -/
def clear_frame_folder (frame_path : List String) (fs : FS) : FS :=
  let keep := fun (f : List String × String) => !(f.1 == frame_path && matchesPngGlob f.2)
  { fs with files := fs.files.filter keep }

/-- Lines 53–62, `generate_palette`: renders the 1×n palette strip and saves
it as `generated_palette.png` in the run directory; modelled by its file
effect. -/
def generate_palette (vg : VideoGenerator) (fs : FS) : FS :=
  writeFile fs ([vg.output_folder, vg.name], "generated_palette.png")

/-- Decimal digits of `n`, most significant first (`Nat.digits` is
little-endian). -/
def decimalDigits (n : ℕ) : List ℕ := (Nat.digits 10 n).reverse

/-- Left-pad a digit list with zeros to width nine. -/
def zfill9 (l : List ℕ) : List ℕ := List.replicate (9 - l.length) 0 ++ l

/-- Python `f"{n:09d}"` for non-negative `n`: the decimal representation
left-padded with `0` to at least nine characters. -/
def format09d (n : ℕ) : String :=
  String.mk ((zfill9 (decimalDigits n)).map Nat.digitChar)

/-- Name of the file persisted at frame-counter value `n` (line 81). -/
def frameFileName (n : ℕ) : String := format09d n ++ ".png"

/-- The attribute values `__init__` stores (lines 11–14, 17, 25–26): the run
name, output folder, `frame_folder = "frames"`, `frame_count = 1`, the
normalised scheme, its length as `n_colours`, and the colormap. -/
def vgRecord (name output_folder : String) (scheme : List (ℕ × ColourValue))
    (cmap : List ColourValue) : VideoGenerator :=
  { name := name, output_folder := output_folder, frame_folder := "frames",
    frame_count := 1, colour_scheme := scheme, n_colours := scheme.length, cmap := cmap }

/-- Lines 29–37 of `__init__`: create the three nested output directories with
`exist_ok=True`, clear stale frame images, and write the palette preview. -/
def vgInitFS (vg : VideoGenerator) (fs : FS) : FS :=
  generate_palette vg (clear_frame_folder vg.framePath
    (makedirs [vg.output_folder, vg.name, vg.frame_folder]
      (makedirs [vg.output_folder, vg.name] (makedirs [vg.output_folder] fs))))

/-- Lines 10–37, `__init__`: normalise the colour scheme into a fresh dict and
compute the colormap (where `max()` on an empty key list raises `ValueError`,
before any directory is touched), then perform the directory and palette side
effects of `vgInitFS`. -/
def vgInit (name : String) (colour_scheme : List (ℕ × ColourValue))
    (output_folder : String) (fs : FS) : Except PyError (VideoGenerator × FS) :=
  match create_colormap (normalizeScheme colour_scheme) with
  | .error e => .error e
  | .ok cmap =>
    .ok (vgRecord name output_folder (normalizeScheme colour_scheme) cmap,
      vgInitFS (vgRecord name output_folder (normalizeScheme colour_scheme) cmap) fs)

/-- A polyline overlay as drawn by `draw_line` (lines 73–75). -/
structure Line where
  x : List ℚ
  y : List ℚ
  colour : String
  linestyle : String
  marker : String
deriving DecidableEq, Repr

/-- The implicit matplotlib drawing context: the rasterised image (rows of
looked-up colours) plus overlays drawn on top. -/
structure Figure where
  image : List (List ColourValue)
  lines : List Line
deriving DecidableEq, Repr

/-- Calling a `ListedColormap` with an integer index looks up that entry,
clipping an out-of-range index to the last entry. -/
def cmapApply (colors : List ColourValue) (i : ℕ) : ColourValue :=
  colors.getD (min i (colors.length - 1)) (.tup [0, 0, 0])

/-- Whole-program state: the object state, the file system, the implicit
drawing context (`none` after `plt.close()`), and the trace of external
commands invoked so far. -/
structure World where
  vg : VideoGenerator
  fs : FS
  canvas : Option Figure
  cmds : List (List String)
deriving DecidableEq, Repr

/-- Lines 64–70, `draw_frame`: map every cell through the colormap and make
the result the current figure. -/
def draw_frame (frame : List (List ℕ)) (w : World) : World :=
  { w with canvas := some { image := frame.map (fun row => row.map (cmapApply w.vg.cmap)),
                            lines := [] } }

/-- Lines 73–75, `draw_line`: draw a polyline on the current figure
(`plt.plot` opens a fresh empty figure when none is current). -/
def draw_line (x y : List ℚ) (colour linestyle marker : String) (w : World) : World :=
  let fig := w.canvas.getD { image := [], lines := [] }
  { w with canvas := some { fig with
      lines := fig.lines ++ [{ x := x, y := y, colour := colour,
                               linestyle := linestyle, marker := marker }] } }

/-- Lines 77–86, `print_frame`: save the current figure under the zero-padded
frame-counter name, increment the counter, close the figure. -/
def print_frame (w : World) : World :=
  { w with
      fs := writeFile w.fs (w.vg.framePath, frameFileName w.vg.frame_count),
      vg := { w.vg with frame_count := w.vg.frame_count + 1 },
      canvas := none }

/-- The environment seen by `subprocess.call`: which executables exist on the
`PATH`, and the exit status each invocation would return. -/
structure SubprocessWorld where
  binaryExists : String → Bool
  exitCode : List String → Int

/-- `subprocess.call(cmd)`: returns the process's exit status; raises
`FileNotFoundError` when the executable does not exist. -/
def subprocess_call (spw : SubprocessWorld) (cmd : List String) : Except PyError Int :=
  if spw.binaryExists (cmd.headD "") then .ok (spw.exitCode cmd)
  else .error .fileNotFoundError

/-- Lines 91–97: the palette-generation command. -/
def palettegenCmd (vg : VideoGenerator) : List String :=
  ["ffmpeg", "-y",
   "-i", vg.runPath ++ "/generated_palette.png",
   "-vf", "palettegen",
   vg.runPath ++ "/palette.png"]

/-- Lines 100–108: the GIF-assembly command. -/
def assembleCmd (vg : VideoGenerator) (framerate : ℕ) : List String :=
  ["ffmpeg", "-y",
   "-framerate", toString framerate,
   "-i", vg.runPath ++ "/" ++ vg.frame_folder ++ "/%09d.png",
   "-i", vg.runPath ++ "/palette.png",
   "-filter_complex", "paletteuse",
   vg.runPath ++ "/" ++ vg.name ++ ".gif"]

/-- Lines 88–111, `print_video`: two `subprocess.call` invocations whose exit
statuses are discarded, then an optional clearing of the frame folder. -/
def print_video (spw : SubprocessWorld) (framerate : ℕ) (clear_frames : Bool)
    (w : World) : Except PyError World :=
  match subprocess_call spw (palettegenCmd w.vg) with
  | .error e => .error e
  | .ok _ =>
    match subprocess_call spw (assembleCmd w.vg framerate) with
    | .error e => .error e
    | .ok _ =>
      if clear_frames then
        .ok { w with cmds := w.cmds ++ [palettegenCmd w.vg, assembleCmd w.vg framerate],
                     fs := clear_frame_folder w.vg.framePath w.fs }
      else
        .ok { w with cmds := w.cmds ++ [palettegenCmd w.vg, assembleCmd w.vg framerate] }

/-- The operations a caller may interleave between construction and
finalisation. -/
inductive VGOp where
  | rasterize (frame : List (List ℕ))
  | overlay (x y : List ℚ) (colour linestyle marker : String)
  | persist
deriving DecidableEq, Repr

/-- Apply one caller operation to the program state. -/
def applyOp (w : World) : VGOp → World
  | .rasterize frame => draw_frame frame w
  | .overlay x y c ls m => draw_line x y c ls m w
  | .persist => print_frame w

/-- Run a sequence of caller operations. -/
def runOps (w : World) (ops : List VGOp) : World := ops.foldl applyOp w

/-- Number of persist (`print_frame`) operations in a sequence. -/
def countPersists (ops : List VGOp) : ℕ :=
  ops.countP (fun op => match op with | .persist => true | _ => false)

/-- A heap of Python dict objects, used to state aliasing and mutation facts
about lines 17–23: references are indices into the store, allocation appends. -/
structure DictHeap where
  store : List (List (ℕ × ColourValue))
deriving DecidableEq, Repr

/-- Dereference a dict reference. -/
def DictHeap.get (h : DictHeap) (r : ℕ) : List (ℕ × ColourValue) := h.store.getD r []

/-- Overwrite the dict a reference points to. -/
def DictHeap.set (h : DictHeap) (r : ℕ) (d : List (ℕ × ColourValue)) : DictHeap :=
  ⟨h.store.set r d⟩

/-- Allocate a new dict object, returning its reference. -/
def DictHeap.alloc (h : DictHeap) (d : List (ℕ × ColourValue)) : ℕ × DictHeap :=
  (h.store.length, ⟨h.store ++ [d]⟩)

/-- Heap-level rendering of lines 17–23: `self.colour_scheme = {}` allocates a
fresh dict; the loop reads the caller's dict and assigns only into the fresh
one. -/
def initColourScheme (h : DictHeap) (callerRef : ℕ) : ℕ × DictHeap :=
  let a := h.alloc []
  let h2 := (a.2.get callerRef).foldl
    (fun hh p => hh.set a.1 (dictInsert (hh.get a.1) p.1 (normalizeValue p.2))) a.2
  (a.1, h2)

/-! ### Sample concrete inputs used by witness theorems -/

/-- A small concrete colour scheme: two pre-normalised scalar entries with a
gap at key 1 (scalar entries keep witness evaluation free of rational
arithmetic, which kernel reduction cannot evaluate through `Nat.gcd`). -/
def sampleScheme : List (ℕ × ColourValue) :=
  [(0, ColourValue.scalar 0), (2, ColourValue.scalar 2)]

/-- A starting file system holding one stale frame image from a previous run. -/
def sampleFS0 : FS := ⟨[], [(["v", "t", "frames"], "000000001.png")]⟩

/-- The instance state `vgInit "t" sampleScheme "v"` produces. -/
def sampleVG : VideoGenerator :=
  { name := "t", output_folder := "v", frame_folder := "frames", frame_count := 1,
    colour_scheme := [(0, ColourValue.scalar 0), (2, ColourValue.scalar 2)],
    n_colours := 2,
    cmap := [ColourValue.scalar 0, ColourValue.tup [0, 0, 0], ColourValue.scalar 2] }

/-- The file system `vgInit "t" sampleScheme "v"` leaves behind when started
from `sampleFS0`. -/
def sampleFS : FS :=
  ⟨[["v"], ["v", "t"], ["v", "t", "frames"]], [(["v", "t"], "generated_palette.png")]⟩

/-- The program state right after the sample construction. -/
def sampleWorld : World := ⟨sampleVG, sampleFS, none, []⟩

/-- An encoder environment in which `ffmpeg` exists and always succeeds. -/
def spwOk : SubprocessWorld := ⟨fun _ => true, fun _ => 0⟩

/-- A world like the sample one after one persisted frame, written with the
frame file name as a literal so that witnesses evaluate by kernel reduction
(`Nat.digits` is defined by well-founded recursion and does not reduce). -/
def sampleWorldWithFrame : World :=
  { vg := { sampleVG with frame_count := 2 },
    fs := ⟨sampleFS.dirs, sampleFS.files ++ [(["v", "t", "frames"], "000000001.png")]⟩,
    canvas := none,
    cmds := [] }

/-- The commands a finalisation of the one-frame sample world issues. -/
def sampleCmds : List (List String) :=
  [palettegenCmd sampleWorldWithFrame.vg, assembleCmd sampleWorldWithFrame.vg 10]

/-- The one-frame sample world finalised with `clear_frames = true`. -/
def sampleWorldClearedT : World :=
  { sampleWorldWithFrame with
      cmds := sampleCmds,
      fs := clear_frame_folder sampleWorldWithFrame.vg.framePath sampleWorldWithFrame.fs }

/-- The one-frame sample world finalised with `clear_frames = false`. -/
def sampleWorldClearedF : World :=
  { sampleWorldWithFrame with cmds := sampleCmds }

/-- The sample world after a finalisation that keeps its (empty) frame set. -/
def sampleWorldAfterVideo : World :=
  { sampleWorld with cmds := [palettegenCmd sampleVG, assembleCmd sampleVG 10] }

/-- A one-dict heap whose only dict plays the role of the caller-supplied
default colour scheme. -/
def sampleHeap : DictHeap := ⟨[[(0, ColourValue.tup [0, 0, 0])]]⟩

/-- Value of a most-significant-first decimal digit list. -/
def valMSB (l : List ℕ) : ℕ := l.foldl (fun acc d => 10 * acc + d) 0

/-! ### Helper lemmas on the colour-scheme dictionary -/

lemma dictInsert_not_mem (d : List (ℕ × ColourValue)) (k : ℕ) (v : ColourValue)
    (h : k ∉ d.map Prod.fst) : dictInsert d k v = d ++ [(k, v)] := by
  simp [dictInsert, h]

lemma dictInsert_ne_nil (d : List (ℕ × ColourValue)) (k : ℕ) (v : ColourValue) :
    dictInsert d k v ≠ [] := by
  unfold dictInsert
  split
  · rename_i hmem
    intro hnil
    have hd : d = [] := by
      cases d with
      | nil => rfl
      | cons a t => simp at hnil
    subst hd
    simp at hmem
  · simp

lemma foldl_dictInsert_ne_nil (l : List (ℕ × ColourValue)) :
    ∀ acc : List (ℕ × ColourValue), acc ≠ [] ∨ l ≠ [] →
      l.foldl (fun d p => dictInsert d p.1 (normalizeValue p.2)) acc ≠ [] := by
  induction l with
  | nil =>
    intro acc hacc
    simpa using hacc
  | cons p t ih =>
    intro acc _
    rw [List.foldl_cons]
    exact ih _ (Or.inl (dictInsert_ne_nil acc p.1 (normalizeValue p.2)))

lemma normalizeScheme_ne_nil (cs : List (ℕ × ColourValue)) (h : cs ≠ []) :
    normalizeScheme cs ≠ [] :=
  foldl_dictInsert_ne_nil cs [] (Or.inr h)

lemma foldl_dictInsert_eq_append (cs : List (ℕ × ColourValue)) :
    ∀ acc : List (ℕ × ColourValue),
      (∀ k, k ∈ acc.map Prod.fst → k ∉ cs.map Prod.fst) →
      (cs.map Prod.fst).Nodup →
      cs.foldl (fun d p => dictInsert d p.1 (normalizeValue p.2)) acc
        = acc ++ cs.map (fun p => (p.1, normalizeValue p.2)) := by
  induction cs with
  | nil =>
    intro acc _ _
    simp
  | cons p t ih =>
    intro acc hdisj hnd
    simp only [List.map_cons, List.nodup_cons] at hnd
    have hp : p.1 ∉ acc.map Prod.fst := by
      intro hmem
      exact hdisj _ hmem (by simp)
    rw [List.foldl_cons, dictInsert_not_mem _ _ _ hp,
        ih (acc ++ [(p.1, normalizeValue p.2)]) ?_ hnd.2]
    · simp
    · intro k hk
      simp only [List.map_append, List.mem_append, List.map_cons, List.mem_singleton,
        List.map_nil] at hk
      rcases hk with hk | hk
      · intro hkt
        exact hdisj k hk (by simp [hkt])
      · have hk2 : k = p.1 := by simpa using hk
        subst hk2
        exact hnd.1

lemma normalizeScheme_eq_map (cs : List (ℕ × ColourValue))
    (hnd : (cs.map Prod.fst).Nodup) :
    normalizeScheme cs = cs.map (fun p => (p.1, normalizeValue p.2)) := by
  simpa [normalizeScheme] using foldl_dictInsert_eq_append cs [] (by simp) hnd

lemma normalizeScheme_keys (cs : List (ℕ × ColourValue))
    (hnd : (cs.map Prod.fst).Nodup) :
    (normalizeScheme cs).map Prod.fst = cs.map Prod.fst := by
  rw [normalizeScheme_eq_map cs hnd, List.map_map]
  rfl

lemma find?_norm_of_mem (cs : List (ℕ × ColourValue)) (k : ℕ) (v : ColourValue)
    (hnd : (cs.map Prod.fst).Nodup) (hmem : (k, v) ∈ cs) :
    (cs.map (fun p => (p.1, normalizeValue p.2))).find? (fun p => p.1 == k)
      = some (k, normalizeValue v) := by
  induction cs with
  | nil => simp at hmem
  | cons q t ih =>
    simp only [List.map_cons, List.nodup_cons] at hnd
    by_cases hq : q.1 = k
    · have hv : v = q.2 := by
        rcases List.mem_cons.mp hmem with h1 | h1
        · rw [← h1]
        · exact absurd (hq ▸ List.mem_map.mpr ⟨(k, v), h1, rfl⟩) hnd.1
      rw [List.map_cons, List.find?_cons_of_pos _ (by simp [hq]), hv, hq]
    · have hmem' : (k, v) ∈ t := by
        rcases List.mem_cons.mp hmem with h1 | h1
        · exact absurd (congrArg Prod.fst h1.symm) hq
        · exact h1
      rw [List.map_cons, List.find?_cons_of_neg _ (by simp [hq])]
      exact ih hnd.2 hmem'

lemma find?_norm_of_not_mem (cs : List (ℕ × ColourValue)) (k : ℕ)
    (hk : k ∉ cs.map Prod.fst) :
    (cs.map (fun p => (p.1, normalizeValue p.2))).find? (fun p => p.1 == k) = none := by
  rw [List.find?_eq_none]
  intro x hx
  rcases List.mem_map.mp hx with ⟨p, hp, rfl⟩
  simp only [beq_iff_eq]
  intro hpk
  exact hk (hpk ▸ List.mem_map.mpr ⟨p, hp, rfl⟩)

/-! ### Helper lemmas on `pyMax` -/

lemma foldl_max_le (l : List ℕ) :
    ∀ acc : ℕ, acc ≤ l.foldl max acc ∧ ∀ k ∈ l, k ≤ l.foldl max acc := by
  induction l with
  | nil =>
    intro acc
    simp
  | cons x t ih =>
    intro acc
    rw [List.foldl_cons]
    refine ⟨le_trans (le_max_left acc x) (ih (max acc x)).1, ?_⟩
    intro k hk
    rcases List.mem_cons.mp hk with rfl | hk
    · exact le_trans (le_max_right acc k) (ih (max acc k)).1
    · exact (ih (max acc x)).2 k hk

lemma foldl_max_mem (l : List ℕ) :
    ∀ acc : ℕ, l.foldl max acc = acc ∨ l.foldl max acc ∈ l := by
  induction l with
  | nil =>
    intro acc
    left
    rfl
  | cons x t ih =>
    intro acc
    rw [List.foldl_cons]
    rcases ih (max acc x) with h | h
    · rw [h]
      rcases max_choice acc x with h2 | h2
      · left
        exact h2
      · right
        rw [h2]
        exact List.mem_cons_self x t
    · right
      exact List.mem_cons_of_mem _ h

lemma pyMax_spec (l : List ℕ) (m : ℕ) (h : pyMax l = Except.ok m) :
    m ∈ l ∧ ∀ k ∈ l, k ≤ m := by
  cases l with
  | nil => simp [pyMax] at h
  | cons x t =>
    simp only [pyMax, Except.ok.injEq] at h
    subst h
    refine ⟨?_, ?_⟩
    · rcases foldl_max_mem t x with h | h
      · rw [h]
        exact List.mem_cons_self x t
      · exact List.mem_cons_of_mem _ h
    · intro k hk
      rcases List.mem_cons.mp hk with rfl | hk
      · exact (foldl_max_le t k).1
      · exact (foldl_max_le t x).2 k hk

/-! ### Inversion of construction and basic step lemmas -/

lemma vgInit_ok_elim {name out : String} {cs : List (ℕ × ColourValue)} {fs : FS}
    {vg : VideoGenerator} {fs' : FS}
    (h : vgInit name cs out fs = Except.ok (vg, fs')) :
    create_colormap (normalizeScheme cs) = Except.ok vg.cmap ∧
    vg = vgRecord name out (normalizeScheme cs) vg.cmap ∧
    fs' = vgInitFS vg fs := by
  unfold vgInit at h
  split at h
  · exact absurd h (by simp)
  · rename_i cmap hc
    injection h with h2
    rw [Prod.mk.injEq] at h2
    obtain ⟨h3, h4⟩ := h2
    subst h3
    exact ⟨hc, rfl, h4.symm⟩

lemma runOps_frame_count (ops : List VGOp) :
    ∀ w : World, (runOps w ops).vg.frame_count = w.vg.frame_count + countPersists ops := by
  induction ops with
  | nil =>
    intro w
    simp [runOps, countPersists]
  | cons op t ih =>
    intro w
    have hstep := ih (applyOp w op)
    simp only [runOps, List.foldl_cons] at hstep ⊢
    rw [hstep]
    cases op with
    | rasterize f => simp [applyOp, draw_frame, countPersists, List.countP_cons]
    | overlay x y c ls m => simp [applyOp, draw_line, countPersists, List.countP_cons]
    | persist =>
      simp only [applyOp, print_frame, countPersists, List.countP_cons]
      simp
      omega

lemma runOps_cmap (ops : List VGOp) :
    ∀ w : World, (runOps w ops).vg.cmap = w.vg.cmap := by
  induction ops with
  | nil =>
    intro w
    rfl
  | cons op t ih =>
    intro w
    have hstep := ih (applyOp w op)
    simp only [runOps, List.foldl_cons] at hstep ⊢
    rw [hstep]
    cases op <;> rfl

lemma runOps_colour_scheme (ops : List VGOp) :
    ∀ w : World, (runOps w ops).vg.colour_scheme = w.vg.colour_scheme := by
  induction ops with
  | nil =>
    intro w
    rfl
  | cons op t ih =>
    intro w
    have hstep := ih (applyOp w op)
    simp only [runOps, List.foldl_cons] at hstep ⊢
    rw [hstep]
    cases op <;> rfl

/-! ### Heap lemmas for the construction loop -/

lemma DictHeap.length_set (hh : DictHeap) (s : ℕ) (d : List (ℕ × ColourValue)) :
    (hh.set s d).store.length = hh.store.length := by
  simp [DictHeap.set]

lemma DictHeap.get_set_self (hh : DictHeap) (s : ℕ) (d : List (ℕ × ColourValue))
    (h : s < hh.store.length) : (hh.set s d).get s = d := by
  simp [DictHeap.set, DictHeap.get, List.getD_eq_getElem?_getD, List.getElem?_set, h]

lemma DictHeap.get_set_other (hh : DictHeap) (s r : ℕ) (d : List (ℕ × ColourValue))
    (h : s ≠ r) : (hh.set s d).get r = hh.get r := by
  simp [DictHeap.set, DictHeap.get, List.getD_eq_getElem?_getD, List.getElem?_set, h]

lemma initLoop_spec (items : List (ℕ × ColourValue)) :
    ∀ (hh : DictHeap) (s r : ℕ), s ≠ r → s < hh.store.length →
      ((items.foldl (fun h2 p => h2.set s (dictInsert (h2.get s) p.1 (normalizeValue p.2))) hh).get r
          = hh.get r ∧
        (items.foldl (fun h2 p => h2.set s (dictInsert (h2.get s) p.1 (normalizeValue p.2))) hh).get s
          = items.foldl (fun d p => dictInsert d p.1 (normalizeValue p.2)) (hh.get s) ∧
        (items.foldl (fun h2 p => h2.set s (dictInsert (h2.get s) p.1 (normalizeValue p.2))) hh).store.length
          = hh.store.length) := by
  induction items with
  | nil =>
    intro hh s r hsr hs
    exact ⟨rfl, rfl, rfl⟩
  | cons p t ih =>
    intro hh s r hsr hs
    rw [List.foldl_cons, List.foldl_cons]
    have hs1 : s < (hh.set s (dictInsert (hh.get s) p.1 (normalizeValue p.2))).store.length := by
      rw [DictHeap.length_set]
      exact hs
    obtain ⟨ha, hb, hc⟩ := ih (hh.set s (dictInsert (hh.get s) p.1 (normalizeValue p.2))) s r hsr hs1
    refine ⟨?_, ?_, ?_⟩
    · rw [ha, DictHeap.get_set_other _ _ _ _ hsr]
    · rw [hb, DictHeap.get_set_self _ _ _ hs]
    · rw [hc, DictHeap.length_set]

/-! ### Claim C10 -/

/-- C10: construction stores the normalised colours in a freshly allocated
mapping: the reference returned for `self.colour_scheme` differs from the
caller's, the caller-supplied dict (including the shared default) is left
unchanged by the construction loop, the fresh dict holds exactly the
normalised scheme, and no subsequent rasterize/overlay/persist operation
writes to the stored mapping. -/
theorem claim_C10_caller_scheme_not_mutated (h : DictHeap) (r : ℕ)
    (hr : r < h.store.length) :
    (initColourScheme h r).1 ≠ r ∧
    (initColourScheme h r).2.get r = h.get r ∧
    (initColourScheme h r).2.get (initColourScheme h r).1 = normalizeScheme (h.get r) ∧
    (∀ (w : World) (ops : List VGOp),
      (runOps w ops).vg.colour_scheme = w.vg.colour_scheme) := by
  have hne : h.store.length ≠ r := by omega
  have hlen : (h.alloc []).2.store.length = h.store.length + 1 := by
    simp [DictHeap.alloc]
  have hget_r : (h.alloc []).2.get r = h.get r := by
    simp only [DictHeap.alloc, DictHeap.get]
    exact List.getD_append _ _ _ _ hr
  have hget_s : (h.alloc []).2.get h.store.length = [] := by
    simp only [DictHeap.alloc, DictHeap.get]
    rw [List.getD_append_right _ _ _ _ (le_refl _)]
    simp
  obtain ⟨ha, hb, _⟩ := initLoop_spec ((h.alloc []).2.get r) (h.alloc []).2
    h.store.length r hne (by omega)
  simp only [initColourScheme]
  refine ⟨hne, ?_, ?_, fun w ops => runOps_colour_scheme ops w⟩
  · exact ha.trans hget_r
  · rw [show (h.alloc []).1 = h.store.length from rfl]
    rw [hb, hget_s, hget_r]
    rfl

/-- C10 witness at a concrete one-dict heap. -/
theorem claim_C10_caller_scheme_not_mutated_witness :
    (initColourScheme sampleHeap 0).1 ≠ 0 ∧
    (initColourScheme sampleHeap 0).2.get 0 = sampleHeap.get 0 ∧
    (initColourScheme sampleHeap 0).2.get (initColourScheme sampleHeap 0).1
      = normalizeScheme (sampleHeap.get 0) ∧
    (∀ (w : World) (ops : List VGOp),
      (runOps w ops).vg.colour_scheme = w.vg.colour_scheme) :=
  claim_C10_caller_scheme_not_mutated sampleHeap 0 (by decide)

/-! ### Claim C4 -/

/-- C4: the frame counter starts at 1 at construction and is incremented by
exactly one per persist (`print_frame`) call, across any sequence of
rasterize, overlay and persist operations — rasterize and overlay leave it
unchanged. -/
theorem claim_C4_frame_counter (name out : String) (cs : List (ℕ × ColourValue))
    (fs : FS) (vg : VideoGenerator) (fs' : FS)
    (h : vgInit name cs out fs = Except.ok (vg, fs'))
    (ops : List VGOp) (canvas : Option Figure) (cmds : List (List String)) :
    vg.frame_count = 1 ∧
    (runOps ⟨vg, fs', canvas, cmds⟩ ops).vg.frame_count = 1 + countPersists ops := by
  obtain ⟨-, hvg, -⟩ := vgInit_ok_elim h
  have h1 : vg.frame_count = 1 := by rw [hvg]; rfl
  refine ⟨h1, ?_⟩
  rw [runOps_frame_count, h1]

/-- C4 witness: a concrete construction followed by rasterize, persist,
overlay, persist. -/
theorem claim_C4_frame_counter_witness :
    sampleVG.frame_count = 1 ∧
    (runOps ⟨sampleVG, sampleFS, none, []⟩
        [VGOp.rasterize [[0, 1]], VGOp.persist,
         VGOp.overlay [0] [0] "red" "dashed" "o", VGOp.persist]).vg.frame_count
      = 1 + countPersists
          [VGOp.rasterize [[0, 1]], VGOp.persist,
           VGOp.overlay [0] [0] "red" "dashed" "o", VGOp.persist] :=
  claim_C4_frame_counter "t" "v" sampleScheme sampleFS0 sampleVG sampleFS (by decide)
    [VGOp.rasterize [[0, 1]], VGOp.persist,
     VGOp.overlay [0] [0] "red" "dashed" "o", VGOp.persist] none []

/-! ### Claim C9 -/

/-- C9: constructing with an empty colour scheme fails with exactly the
`ValueError` that Python's `max()` raises on an empty sequence — arising in
`create_colormap`, with no other error and no silent default — while for any
colour scheme with at least one entry that error branch is unreachable and
construction succeeds. -/
theorem claim_C9_empty_scheme_error (name out : String) (fs : FS)
    (cs : List (ℕ × ColourValue)) (hcs : cs ≠ []) :
    vgInit name [] out fs = Except.error PyError.valueError ∧
    create_colormap (normalizeScheme []) = Except.error PyError.valueError ∧
    pyMax ([] : List ℕ) = Except.error PyError.valueError ∧
    (vgInit name cs out fs).isOk = true := by
  refine ⟨rfl, rfl, rfl, ?_⟩
  have h1 : normalizeScheme cs ≠ [] := normalizeScheme_ne_nil cs hcs
  cases hkeys : (normalizeScheme cs).map Prod.fst with
  | nil => exact absurd (by simpa using hkeys) h1
  | cons x xs =>
    unfold vgInit create_colormap
    rw [hkeys]
    rfl

/-- C9 witness at the sample scheme. -/
theorem claim_C9_empty_scheme_error_witness :
    vgInit "t" [] "v" sampleFS0 = Except.error PyError.valueError ∧
    create_colormap (normalizeScheme []) = Except.error PyError.valueError ∧
    pyMax ([] : List ℕ) = Except.error PyError.valueError ∧
    (vgInit "t" sampleScheme "v" sampleFS0).isOk = true :=
  claim_C9_empty_scheme_error "t" "v" sampleFS0 sampleScheme (by decide)

/-! ### Claim C1 -/

/-- C1 as stated is false on the code: when the external encoder binary is
absent, `subprocess.call` raises `FileNotFoundError` (it does not return an
exit status), and that exception propagates out of `print_video` instead of
the function returning normally. -/
theorem claim_C1_counterexample :
    print_video ⟨fun _ => false, fun _ => 0⟩ 10 true sampleWorld
      = Except.error PyError.fileNotFoundError := by
  decide

/-- C1 (amended): when the encoder binary exists, `print_video` returns
normally regardless of the exit statuses of the two encoder invocations —
exit statuses are never inspected, so a failing encoder is silently
tolerated; only a missing binary makes the call raise. -/
theorem claim_C1_encoder_failure_tolerated (spw : SubprocessWorld) (fr : ℕ)
    (cf : Bool) (w : World) (hbin : spw.binaryExists "ffmpeg" = true) :
    (print_video spw fr cf w).isOk = true := by
  unfold print_video subprocess_call palettegenCmd assembleCmd
  simp only [List.headD_cons, hbin, if_true]
  cases cf <;> rfl

/-- C1 amended-claim witness: both encoder invocations exit with status 1, and
`print_video` still returns normally. -/
theorem claim_C1_encoder_failure_tolerated_witness :
    (print_video ⟨fun _ => true, fun _ => 1⟩ 10 true sampleWorld).isOk = true :=
  claim_C1_encoder_failure_tolerated ⟨fun _ => true, fun _ => 1⟩ 10 true sampleWorld rfl

/-! ### Inversion of `print_video` -/

lemma print_video_ok_elim {spw : SubprocessWorld} {fr : ℕ} {cf : Bool} {w w' : World}
    (h : print_video spw fr cf w = Except.ok w') :
    w'.vg = w.vg ∧ w'.canvas = w.canvas ∧
    w'.cmds = w.cmds ++ [palettegenCmd w.vg, assembleCmd w.vg fr] ∧
    w'.fs = (if cf then clear_frame_folder w.vg.framePath w.fs else w.fs) := by
  unfold print_video at h
  split at h
  · exact absurd h (by simp)
  · split at h
    · exact absurd h (by simp)
    · cases cf
      · simp only [if_neg Bool.false_ne_true] at h ⊢
        injection h with h2
        subst h2
        exact ⟨rfl, rfl, rfl, rfl⟩
      · simp only [if_pos rfl] at h ⊢
        injection h with h2
        subst h2
        exact ⟨rfl, rfl, rfl, rfl⟩

/-! ### Claim C2 -/

/-- C2: for every entry of the colour scheme supplied at construction, a tuple
value is stored with each component divided by 255 (so components supplied in
0–255 form land in the closed interval from 0 to 1), while a non-tuple value
is stored unchanged. -/
theorem claim_C2_normalisation (name out : String) (cs : List (ℕ × ColourValue))
    (fs : FS) (vg : VideoGenerator) (fs' : FS)
    (hnd : (cs.map Prod.fst).Nodup)
    (h : vgInit name cs out fs = Except.ok (vg, fs')) :
    (∀ k comps, (k, ColourValue.tup comps) ∈ cs →
      vg.colour_scheme.find? (fun p => p.1 == k)
          = some (k, ColourValue.tup (comps.map (fun c => c / 255))) ∧
      ∀ c ∈ comps, 0 ≤ c → c ≤ 255 → 0 ≤ c / 255 ∧ c / 255 ≤ 1) ∧
    (∀ k s, (k, ColourValue.scalar s) ∈ cs →
      vg.colour_scheme.find? (fun p => p.1 == k) = some (k, ColourValue.scalar s)) := by
  obtain ⟨-, hvg, -⟩ := vgInit_ok_elim h
  have hcs : vg.colour_scheme = cs.map (fun p => (p.1, normalizeValue p.2)) := by
    rw [hvg]
    exact normalizeScheme_eq_map cs hnd
  constructor
  · intro k comps hmem
    refine ⟨?_, ?_⟩
    · rw [hcs]
      exact find?_norm_of_mem cs k (ColourValue.tup comps) hnd hmem
    · intro c _ hc0 hc255
      refine ⟨div_nonneg hc0 (by norm_num), ?_⟩
      rw [div_le_one (by norm_num : (0 : ℚ) < 255)]
      exact hc255
  · intro k s hmem
    rw [hcs]
    exact find?_norm_of_mem cs k (ColourValue.scalar s) hnd hmem

/-- C2 witness at the sample scheme. -/
theorem claim_C2_normalisation_witness :
    (∀ k comps, (k, ColourValue.tup comps) ∈ sampleScheme →
      sampleVG.colour_scheme.find? (fun p => p.1 == k)
          = some (k, ColourValue.tup (comps.map (fun c => c / 255))) ∧
      ∀ c ∈ comps, 0 ≤ c → c ≤ 255 → 0 ≤ c / 255 ∧ c / 255 ≤ 1) ∧
    (∀ k s, (k, ColourValue.scalar s) ∈ sampleScheme →
      sampleVG.colour_scheme.find? (fun p => p.1 == k)
        = some (k, ColourValue.scalar s)) :=
  claim_C2_normalisation "t" "v" sampleScheme sampleFS0 sampleVG sampleFS
    (by decide) (by decide)

/-! ### Claim C3 -/

/-- C3: for a non-empty colour scheme, the colormap built at construction is a
dense sequence of length `max(configured keys) + 1`; index `i` holds the
normalised colour configured for key `i` when present and black `(0,0,0)` for
every in-range index with no configured key; and neither the caller
operations nor `print_video` ever mutate it. -/
theorem claim_C3_dense_colormap (name out : String) (cs : List (ℕ × ColourValue))
    (fs : FS) (vg : VideoGenerator) (fs' : FS) (m : ℕ)
    (hnd : (cs.map Prod.fst).Nodup)
    (h : vgInit name cs out fs = Except.ok (vg, fs'))
    (hm : pyMax (cs.map Prod.fst) = Except.ok m) :
    (m ∈ cs.map Prod.fst ∧ ∀ k ∈ cs.map Prod.fst, k ≤ m) ∧
    vg.cmap.length = m + 1 ∧
    (∀ k v, (k, v) ∈ cs → vg.cmap[k]? = some (normalizeValue v)) ∧
    (∀ i : ℕ, i ≤ m → i ∉ cs.map Prod.fst →
      vg.cmap[i]? = some (ColourValue.tup [0, 0, 0])) ∧
    (∀ (ops : List VGOp) (canvas : Option Figure) (cmds : List (List String)),
      (runOps ⟨vg, fs', canvas, cmds⟩ ops).vg.cmap = vg.cmap) ∧
    (∀ (spw : SubprocessWorld) (fr : ℕ) (cf : Bool) (w w' : World),
      print_video spw fr cf w = Except.ok w' → w'.vg.cmap = w.vg.cmap) := by
  obtain ⟨hcc, hvg, -⟩ := vgInit_ok_elim h
  have hkeys : (normalizeScheme cs).map Prod.fst = cs.map Prod.fst :=
    normalizeScheme_keys cs hnd
  unfold create_colormap at hcc
  rw [hkeys, hm] at hcc
  injection hcc with hcmap
  obtain ⟨hmm, hmax⟩ := pyMax_spec _ _ hm
  refine ⟨⟨hmm, hmax⟩, ?_, ?_, ?_, ?_, ?_⟩
  · rw [← hcmap]
    simp
  · intro k v hmem
    have hk : k ≤ m := hmax k (List.mem_map.mpr ⟨(k, v), hmem, rfl⟩)
    rw [← hcmap, List.getElem?_map, List.getElem?_range (by omega : k < m + 1),
        Option.map_some']
    unfold dictGet
    rw [normalizeScheme_eq_map cs hnd, find?_norm_of_mem cs k v hnd hmem]
  · intro i hi hnot
    rw [← hcmap, List.getElem?_map, List.getElem?_range (by omega : i < m + 1),
        Option.map_some']
    unfold dictGet
    rw [normalizeScheme_eq_map cs hnd, find?_norm_of_not_mem cs i hnot]
  · intro ops canvas cmds
    exact runOps_cmap ops _
  · intro spw fr cf w w' hpv
    rw [(print_video_ok_elim hpv).1]

/-- C3 witness at the sample scheme, whose maximal key is 2. -/
theorem claim_C3_dense_colormap_witness :
    (2 ∈ sampleScheme.map Prod.fst ∧ ∀ k ∈ sampleScheme.map Prod.fst, k ≤ 2) ∧
    sampleVG.cmap.length = 2 + 1 ∧
    (∀ k v, (k, v) ∈ sampleScheme → sampleVG.cmap[k]? = some (normalizeValue v)) ∧
    (∀ i : ℕ, i ≤ 2 → i ∉ sampleScheme.map Prod.fst →
      sampleVG.cmap[i]? = some (ColourValue.tup [0, 0, 0])) ∧
    (∀ (ops : List VGOp) (canvas : Option Figure) (cmds : List (List String)),
      (runOps ⟨sampleVG, sampleFS, canvas, cmds⟩ ops).vg.cmap = sampleVG.cmap) ∧
    (∀ (spw : SubprocessWorld) (fr : ℕ) (cf : Bool) (w w' : World),
      print_video spw fr cf w = Except.ok w' → w'.vg.cmap = w.vg.cmap) :=
  claim_C3_dense_colormap "t" "v" sampleScheme sampleFS0 sampleVG sampleFS 2
    (by decide) (by decide) (by decide)

/-! ### Digit and lexicographic-ordering lemmas for frame file names -/

lemma valMSB_foldl (l : List ℕ) :
    ∀ c : ℕ, l.foldl (fun acc d => 10 * acc + d) c = c * 10 ^ l.length + valMSB l := by
  induction l with
  | nil =>
    intro c
    simp [valMSB]
  | cons d t ih =>
    intro c
    rw [List.foldl_cons, ih (10 * c + d)]
    have h2 : valMSB (d :: t) = (10 * 0 + d) * 10 ^ t.length + valMSB t := by
      show t.foldl _ (10 * 0 + d) = _
      exact ih (10 * 0 + d)
    rw [h2, List.length_cons]
    ring

lemma valMSB_cons (d : ℕ) (t : List ℕ) :
    valMSB (d :: t) = d * 10 ^ t.length + valMSB t := by
  show t.foldl (fun acc x => 10 * acc + x) (10 * 0 + d) = _
  rw [valMSB_foldl]
  ring

lemma valMSB_lt_pow (l : List ℕ) (h : ∀ d ∈ l, d < 10) : valMSB l < 10 ^ l.length := by
  induction l with
  | nil => simp [valMSB]
  | cons d t ih =>
    rw [valMSB_cons]
    have hd : d < 10 := h d (List.mem_cons_self d t)
    have ht : valMSB t < 10 ^ t.length := ih (fun x hx => h x (List.mem_cons_of_mem d hx))
    calc d * 10 ^ t.length + valMSB t
        < d * 10 ^ t.length + 10 ^ t.length := Nat.add_lt_add_left ht _
      _ = (d + 1) * 10 ^ t.length := by ring
      _ ≤ 10 * 10 ^ t.length := Nat.mul_le_mul_right _ (by omega)
      _ = 10 ^ (d :: t).length := by rw [List.length_cons]; ring

lemma digitChar_lt_digitChar :
    ∀ x < 10, ∀ y < 10, x < y → Nat.digitChar x < Nat.digitChar y := by decide

lemma lex_lt_of_valMSB_lt :
    ∀ a b : List ℕ, a.length = b.length →
      (∀ d ∈ a, d < 10) → (∀ d ∈ b, d < 10) → valMSB a < valMSB b →
      ∀ suf : List Char,
        List.Lex (fun c1 c2 : Char => c1 < c2) (a.map Nat.digitChar ++ suf)
          (b.map Nat.digitChar ++ suf) := by
  intro a
  induction a with
  | nil =>
    intro b hlen _ _ hv suf
    cases b with
    | nil => simp [valMSB] at hv
    | cons y ys => simp at hlen
  | cons x xs ih =>
    intro b hlen ha hb hv suf
    cases b with
    | nil => simp at hlen
    | cons y ys =>
      have hlen' : xs.length = ys.length := by simpa using hlen
      have hx : x < 10 := ha x (List.mem_cons_self x xs)
      have hy : y < 10 := hb y (List.mem_cons_self y ys)
      rcases Nat.lt_trichotomy x y with hxy | hxy | hxy
      · exact List.Lex.rel (digitChar_lt_digitChar x hx y hy hxy)
      · subst hxy
        have hv' : valMSB xs < valMSB ys := by
          rw [valMSB_cons, valMSB_cons, hlen'] at hv
          exact Nat.lt_of_add_lt_add_left hv
        have htail := ih ys hlen' (fun d hd => ha d (List.mem_cons_of_mem x hd))
          (fun d hd => hb d (List.mem_cons_of_mem x hd)) hv' suf
        exact List.Lex.cons htail
      · exfalso
        have h1 : valMSB ys < 10 ^ ys.length :=
          valMSB_lt_pow ys (fun d hd => hb d (List.mem_cons_of_mem y hd))
        have h2 : (y + 1) * 10 ^ ys.length ≤ x * 10 ^ ys.length :=
          Nat.mul_le_mul_right _ (by omega)
        rw [valMSB_cons, valMSB_cons, hlen'] at hv
        have h3 : y * 10 ^ ys.length + valMSB ys < (y + 1) * 10 ^ ys.length := by
          rw [add_mul, one_mul]
          exact Nat.add_lt_add_left h1 _
        have h4 : y * 10 ^ ys.length + valMSB ys < x * 10 ^ ys.length + valMSB xs :=
          lt_of_lt_of_le (lt_of_lt_of_le h3 h2) (Nat.le_add_right _ _)
        exact absurd h4 (Nat.lt_asymm hv)

lemma mem_decimalDigits_lt (n : ℕ) : ∀ d ∈ decimalDigits n, d < 10 := by
  intro d hd
  rw [decimalDigits, List.mem_reverse] at hd
  exact Nat.digits_lt_base (by norm_num) hd

lemma valMSB_reverse_ofDigits (l : List ℕ) :
    valMSB l.reverse = Nat.ofDigits 10 l := by
  induction l with
  | nil => simp [valMSB, Nat.ofDigits_nil]
  | cons d t ih =>
    rw [List.reverse_cons]
    show (t.reverse ++ [d]).foldl _ 0 = _
    rw [List.foldl_append]
    show 10 * valMSB t.reverse + d = _
    rw [ih, Nat.ofDigits_cons]
    ring

lemma valMSB_decimalDigits (n : ℕ) : valMSB (decimalDigits n) = n := by
  rw [decimalDigits, valMSB_reverse_ofDigits, Nat.ofDigits_digits]

lemma foldl_replicate_zero (k : ℕ) :
    (List.replicate k 0).foldl (fun acc d => 10 * acc + d) 0 = 0 := by
  induction k with
  | zero => rfl
  | succ k ih =>
    rw [List.replicate_succ, List.foldl_cons]
    simpa using ih

lemma valMSB_zfill9 (l : List ℕ) : valMSB (zfill9 l) = valMSB l := by
  unfold valMSB zfill9
  rw [List.foldl_append, foldl_replicate_zero]

lemma digits_length_le_nine (n : ℕ) (h : n ≤ 999999999) :
    (Nat.digits 10 n).length ≤ 9 := by
  by_contra hlen
  push_neg at hlen
  have hne : n ≠ 0 := by
    intro h0
    subst h0
    simp [Nat.digits_zero] at hlen
  have h1 : (10 : ℕ) ^ (Nat.digits 10 n).length ≤ 10 * n :=
    Nat.base_pow_length_digits_le 10 n (by norm_num) hne
  have h2 : (10 : ℕ) ^ 10 ≤ 10 ^ (Nat.digits 10 n).length :=
    Nat.pow_le_pow_right (by norm_num) (by omega)
  have h3 : (10 : ℕ) ^ 10 = 10000000000 := by norm_num
  omega

lemma zfill9_decimal_length (n : ℕ) (h : n ≤ 999999999) :
    (zfill9 (decimalDigits n)).length = 9 := by
  have hlth : (decimalDigits n).length ≤ 9 := by
    rw [decimalDigits, List.length_reverse]
    exact digits_length_le_nine n h
  simp [zfill9]
  omega

lemma mem_zfill9_decimal_lt (n : ℕ) : ∀ d ∈ zfill9 (decimalDigits n), d < 10 := by
  intro d hd
  rw [zfill9, List.mem_append] at hd
  rcases hd with hd | hd
  · have := List.eq_of_mem_replicate hd
    omega
  · exact mem_decimalDigits_lt n d hd

lemma frameFileName_data (n : ℕ) :
    (frameFileName n).data
      = (zfill9 (decimalDigits n)).map Nat.digitChar ++ ['.', 'p', 'n', 'g'] := by
  rw [frameFileName, String.data_append]
  have h2 : (".png" : String).data = ['.', 'p', 'n', 'g'] := by decide
  rw [h2]
  rfl

lemma frameFileName_lt_frameFileName (i j : ℕ) (hij : i < j) (hj : j ≤ 999999999) :
    frameFileName i < frameFileName j := by
  have hlex : List.Lex (fun c1 c2 : Char => c1 < c2)
      (frameFileName i).data (frameFileName j).data := by
    rw [frameFileName_data, frameFileName_data]
    exact lex_lt_of_valMSB_lt _ _
      (by rw [zfill9_decimal_length i (by omega), zfill9_decimal_length j hj])
      (mem_zfill9_decimal_lt i) (mem_zfill9_decimal_lt j)
      (by rw [valMSB_zfill9, valMSB_zfill9, valMSB_decimalDigits, valMSB_decimalDigits]
          exact hij)
      ['.', 'p', 'n', 'g']
  rw [String.lt_iff_toList_lt]
  exact hlex

/-! ### Claim C5 -/

/-- C5: each persisted frame file is named by the 9-digit zero-padded value of
the frame counter at persist time, and for counter values in the range
1..999999999 the file names sort lexicographically in call order. -/
theorem claim_C5_lexicographic_names (w : World) (i j : ℕ)
    (hi : w.vg.frame_count = i) (_hpos : 1 ≤ i) (hij : i < j) (hj : j ≤ 999999999) :
    (print_frame w).fs = writeFile w.fs (w.vg.framePath, frameFileName i) ∧
    frameFileName i < frameFileName j := by
  refine ⟨?_, frameFileName_lt_frameFileName i j hij hj⟩
  show writeFile w.fs (w.vg.framePath, frameFileName w.vg.frame_count)
      = writeFile w.fs (w.vg.framePath, frameFileName i)
  rw [hi]

/-- C5 witness at counter values 1 and 2. -/
theorem claim_C5_lexicographic_names_witness :
    (print_frame sampleWorld).fs
        = writeFile sampleWorld.fs (sampleWorld.vg.framePath, frameFileName 1) ∧
    frameFileName 1 < frameFileName 2 :=
  claim_C5_lexicographic_names sampleWorld 1 2 rfl (by decide) (by decide) (by decide)

/-! ### File-system membership lemmas -/

lemma mem_mkdirOne (ds : List (List String)) (p d : List String) :
    d ∈ mkdirOne ds p ↔ d ∈ ds ∨ d = p := by
  unfold mkdirOne
  split
  · rename_i hp
    constructor
    · exact fun h => Or.inl h
    · rintro (h | rfl)
      · exact h
      · exact hp
  · simp

lemma mem_foldl_mkdirOne (ps : List (List String)) :
    ∀ (ds : List (List String)) (d : List String),
      d ∈ ps.foldl mkdirOne ds ↔ d ∈ ds ∨ d ∈ ps := by
  induction ps with
  | nil =>
    intro ds d
    simp
  | cons p t ih =>
    intro ds d
    rw [List.foldl_cons, ih, mem_mkdirOne]
    constructor
    · rintro ((h | h) | h)
      · exact Or.inl h
      · exact Or.inr (by simp [h])
      · exact Or.inr (List.mem_cons_of_mem _ h)
    · rintro (h | h)
      · exact Or.inl (Or.inl h)
      · rcases List.mem_cons.mp h with rfl | h2
        · exact Or.inl (Or.inr rfl)
        · exact Or.inr h2

lemma mem_makedirs (path : List String) (fs : FS) (d : List String) :
    d ∈ (makedirs path fs).dirs ↔
      d ∈ fs.dirs ∨ ∃ i < path.length, path.take (i + 1) = d := by
  simp only [makedirs, mem_foldl_mkdirOne, List.mem_map, List.mem_range]

lemma mem_writeFile (fs : FS) (f g : List String × String) :
    g ∈ (writeFile fs f).files ↔ g ∈ fs.files ∨ g = f := by
  unfold writeFile
  split
  · rename_i hf
    constructor
    · exact fun h => Or.inl h
    · rintro (h | rfl)
      · exact h
      · exact hf
  · simp

lemma mem_clear_frame_folder (fp : List String) (fs : FS) (g : List String × String) :
    g ∈ (clear_frame_folder fp fs).files ↔
      g ∈ fs.files ∧ ¬(g.1 = fp ∧ matchesPngGlob g.2 = true) := by
  simp only [clear_frame_folder, List.mem_filter]
  constructor
  · rintro ⟨h1, h2⟩
    refine ⟨h1, ?_⟩
    rintro ⟨hfp, hglob⟩
    rw [hfp] at h2
    simp [hglob] at h2
  · rintro ⟨h1, h2⟩
    refine ⟨h1, ?_⟩
    by_cases hfp : g.1 = fp
    · have hglob : matchesPngGlob g.2 = false := by
        cases hg : matchesPngGlob g.2
        · rfl
        · exact absurd ⟨hfp, hg⟩ h2
      simp [hfp, hglob]
    · simp [beq_iff_eq, hfp]

lemma vgInitFS_dirs (vg : VideoGenerator) (fs : FS) (d : List String) :
    d ∈ (vgInitFS vg fs).dirs ↔
      d ∈ fs.dirs ∨ d = [vg.output_folder] ∨ d = [vg.output_folder, vg.name] ∨
        d = [vg.output_folder, vg.name, vg.frame_folder] := by
  have h1 : (vgInitFS vg fs).dirs
      = (makedirs [vg.output_folder, vg.name, vg.frame_folder]
          (makedirs [vg.output_folder, vg.name] (makedirs [vg.output_folder] fs))).dirs := by
    simp only [vgInitFS, generate_palette, writeFile, clear_frame_folder]
  rw [h1, mem_makedirs, mem_makedirs, mem_makedirs]
  constructor
  · rintro (((h | ⟨i, hi, rfl⟩) | ⟨i, hi, rfl⟩) | ⟨i, hi, rfl⟩)
    · exact Or.inl h
    · have hi2 : i < 1 := by simpa using hi
      interval_cases i
      · simp
    · have hi2 : i < 2 := by simpa using hi
      interval_cases i
      · simp
      · simp
    · have hi2 : i < 3 := by simpa using hi
      interval_cases i
      · simp
      · simp
      · simp
  · rintro (h | rfl | rfl | rfl)
    · exact Or.inl (Or.inl (Or.inl h))
    · exact Or.inl (Or.inl (Or.inr ⟨0, by simp, rfl⟩))
    · exact Or.inl (Or.inr ⟨1, by simp, rfl⟩)
    · exact Or.inr ⟨2, by simp, rfl⟩

/-! ### Frame file names match the clearing glob -/

lemma zfill9_ne_nil (l : List ℕ) : zfill9 l ≠ [] := by
  unfold zfill9
  intro h
  rw [List.append_eq_nil] at h
  have h1 := congrArg List.length h.1
  have h2 := congrArg List.length h.2
  simp only [List.length_replicate, List.length_nil] at h1 h2
  omega

lemma digitChar_ne_dot : ∀ d < 10, Nat.digitChar d ≠ ('.' : Char) := by decide

lemma head_append_map_digitChar (l : List ℕ) (suf : List Char) (hl : l ≠ [])
    (hlt : ∀ d ∈ l, d < 10) :
    ∃ d, d < 10 ∧ (l.map Nat.digitChar ++ suf).head? = some (Nat.digitChar d) := by
  cases l with
  | nil => exact absurd rfl hl
  | cons d t => exact ⟨d, hlt d (List.mem_cons_self d t), rfl⟩

lemma matchesPngGlob_frameFileName (n : ℕ) : matchesPngGlob (frameFileName n) = true := by
  unfold matchesPngGlob
  rw [frameFileName_data]
  rw [Bool.and_eq_true]
  refine ⟨?_, ?_⟩
  · rw [decide_eq_true_eq]
    exact ⟨(zfill9 (decimalDigits n)).map Nat.digitChar, rfl⟩
  · obtain ⟨d, hd, hhead⟩ := head_append_map_digitChar (zfill9 (decimalDigits n))
      ['.', 'p', 'n', 'g'] (zfill9_ne_nil _) (mem_zfill9_decimal_lt n)
    rw [hhead]
    have hne := digitChar_ne_dot d hd
    simp [hne]

/-! ### Claim C8 -/

/-- C8: construction idempotently creates the three nested output directories
(the resulting directory set is the starting one plus exactly those three, so
a second construction from the resulting state adds nothing), and deletes
every pre-existing frame image (glob `*.png`) from the frame subdirectory —
so a second instance constructed with the same name and output folder clears
the frames the first left behind, every persisted frame name matching that
glob. -/
theorem claim_C8_construction_layout (name out : String)
    (cs : List (ℕ × ColourValue)) (fs : FS) (vg : VideoGenerator) (fs' : FS)
    (h : vgInit name cs out fs = Except.ok (vg, fs')) :
    ([out] ∈ fs'.dirs ∧ [out, name] ∈ fs'.dirs ∧ [out, name, "frames"] ∈ fs'.dirs) ∧
    (∀ d, d ∈ fs'.dirs ↔
      d ∈ fs.dirs ∨ d = [out] ∨ d = [out, name] ∨ d = [out, name, "frames"]) ∧
    (∀ b, matchesPngGlob b = true → ([out, name, "frames"], b) ∉ fs'.files) ∧
    (∀ n : ℕ, matchesPngGlob (frameFileName n) = true) := by
  obtain ⟨-, hvg, hfs⟩ := vgInit_ok_elim h
  have ho : vg.output_folder = out := by rw [hvg]; rfl
  have hn : vg.name = name := by rw [hvg]; rfl
  have hffr : vg.frame_folder = "frames" := by rw [hvg]; rfl
  have hdirs : ∀ d, d ∈ fs'.dirs ↔
      d ∈ fs.dirs ∨ d = [out] ∨ d = [out, name] ∨ d = [out, name, "frames"] := by
    intro d
    rw [hfs, vgInitFS_dirs, ho, hn, hffr]
  refine ⟨⟨(hdirs _).mpr (Or.inr (Or.inl rfl)),
           (hdirs _).mpr (Or.inr (Or.inr (Or.inl rfl))),
           (hdirs _).mpr (Or.inr (Or.inr (Or.inr rfl)))⟩,
          hdirs, ?_, matchesPngGlob_frameFileName⟩
  intro b hglob hmem
  rw [hfs] at hmem
  have hfp : vg.framePath = [out, name, "frames"] := by
    rw [VideoGenerator.framePath, ho, hn, hffr]
  unfold vgInitFS generate_palette at hmem
  rw [mem_writeFile, mem_clear_frame_folder] at hmem
  rcases hmem with ⟨-, hmem2⟩ | heq
  · exact hmem2 ⟨by rw [hfp], hglob⟩
  · rw [Prod.mk.injEq] at heq
    rw [ho, hn] at heq
    simp at heq

/-- C8 witness at the sample construction, which starts from a file system
holding a stale frame image. -/
theorem claim_C8_construction_layout_witness :
    (["v"] ∈ sampleFS.dirs ∧ ["v", "t"] ∈ sampleFS.dirs ∧
      ["v", "t", "frames"] ∈ sampleFS.dirs) ∧
    (∀ d, d ∈ sampleFS.dirs ↔
      d ∈ sampleFS0.dirs ∨ d = ["v"] ∨ d = ["v", "t"] ∨ d = ["v", "t", "frames"]) ∧
    (∀ b, matchesPngGlob b = true → (["v", "t", "frames"], b) ∉ sampleFS.files) ∧
    (∀ n : ℕ, matchesPngGlob (frameFileName n) = true) :=
  claim_C8_construction_layout "t" "v" sampleScheme sampleFS0 sampleVG sampleFS (by decide)

/-! ### Claim C7 -/

/-- C7: with `clear_frames = true` a successful `print_video` removes, after
the two encoder invocations, every frame image (glob `*.png`) from the frame
subdirectory — leaving the frame subdirectory empty whenever all files in it
were frame images — while with `clear_frames = false` all files are left in
place. -/
theorem claim_C7_clear_frames (spw : SubprocessWorld) (fr : ℕ) (w wT wF : World)
    (hT : print_video spw fr true w = Except.ok wT)
    (hF : print_video spw fr false w = Except.ok wF) :
    (∀ b, matchesPngGlob b = true → (w.vg.framePath, b) ∉ wT.fs.files) ∧
    ((∀ f ∈ w.fs.files, f.1 = w.vg.framePath → matchesPngGlob f.2 = true) →
      ∀ f ∈ wT.fs.files, f.1 ≠ w.vg.framePath) ∧
    wF.fs.files = w.fs.files := by
  obtain ⟨-, -, -, hfsT⟩ := print_video_ok_elim hT
  obtain ⟨-, -, -, hfsF⟩ := print_video_ok_elim hF
  rw [if_pos rfl] at hfsT
  rw [if_neg (by simp)] at hfsF
  refine ⟨?_, ?_, by rw [hfsF]⟩
  · intro b hglob hmem
    rw [hfsT, mem_clear_frame_folder] at hmem
    exact hmem.2 ⟨rfl, hglob⟩
  · intro hall f hf hfp
    rw [hfsT, mem_clear_frame_folder] at hf
    exact hf.2 ⟨hfp, hall f hf.1 hfp⟩

/-- C7 witness on the one-frame sample world. -/
theorem claim_C7_clear_frames_witness :
    (∀ b, matchesPngGlob b = true →
      (sampleWorldWithFrame.vg.framePath, b) ∉ sampleWorldClearedT.fs.files) ∧
    ((∀ f ∈ sampleWorldWithFrame.fs.files,
        f.1 = sampleWorldWithFrame.vg.framePath → matchesPngGlob f.2 = true) →
      ∀ f ∈ sampleWorldClearedT.fs.files, f.1 ≠ sampleWorldWithFrame.vg.framePath) ∧
    sampleWorldClearedF.fs.files = sampleWorldWithFrame.fs.files :=
  claim_C7_clear_frames spwOk 10 sampleWorldWithFrame sampleWorldClearedT
    sampleWorldClearedF (by decide) (by decide)

/-! ### Claim C6 -/

lemma append_frames_pattern (s : String) :
    s ++ "/" ++ "frames" ++ "/%09d.png" = s ++ "/frames/%09d.png" := by
  rw [String.append_assoc, String.append_assoc]
  congr 1

/-- C6: a successful `print_video` invokes the external encoder exactly twice,
in order: first the palettegen command (input `generated_palette.png`, filter
`palettegen`, output `palette.png`), then the assembly command (the caller's
framerate, input pattern `frames/%09d.png`, palette input `palette.png`,
filter `paletteuse`, output `<name>.gif`); both carry the overwrite flag
`-y`. -/
theorem claim_C6_encoder_commands (spw : SubprocessWorld) (fr : ℕ) (cf : Bool)
    (w w' : World) (hff : w.vg.frame_folder = "frames")
    (h : print_video spw fr cf w = Except.ok w') :
    w'.cmds = w.cmds ++ [palettegenCmd w.vg, assembleCmd w.vg fr] ∧
    (palettegenCmd w.vg).head? = some "ffmpeg" ∧
    "-y" ∈ palettegenCmd w.vg ∧
    ["-i", w.vg.runPath ++ "/generated_palette.png"] <:+: palettegenCmd w.vg ∧
    ["-vf", "palettegen"] <:+: palettegenCmd w.vg ∧
    (palettegenCmd w.vg).getLast? = some (w.vg.runPath ++ "/palette.png") ∧
    (assembleCmd w.vg fr).head? = some "ffmpeg" ∧
    "-y" ∈ assembleCmd w.vg fr ∧
    ["-framerate", toString fr] <:+: assembleCmd w.vg fr ∧
    ["-i", w.vg.runPath ++ "/frames/%09d.png"] <:+: assembleCmd w.vg fr ∧
    ["-i", w.vg.runPath ++ "/palette.png"] <:+: assembleCmd w.vg fr ∧
    ["-filter_complex", "paletteuse"] <:+: assembleCmd w.vg fr ∧
    (assembleCmd w.vg fr).getLast?
      = some (w.vg.runPath ++ "/" ++ w.vg.name ++ ".gif") := by
  have hcmds := (print_video_ok_elim h).2.2.1
  have hacmd : assembleCmd w.vg fr
      = ["ffmpeg", "-y", "-framerate", toString fr,
         "-i", w.vg.runPath ++ "/frames/%09d.png",
         "-i", w.vg.runPath ++ "/palette.png",
         "-filter_complex", "paletteuse",
         w.vg.runPath ++ "/" ++ w.vg.name ++ ".gif"] := by
    rw [assembleCmd, hff, append_frames_pattern]
  refine ⟨hcmds, rfl, by simp [palettegenCmd], ?_, ?_, rfl, ?_, ?_, ?_, ?_, ?_, ?_, ?_⟩
  · exact ⟨["ffmpeg", "-y"], ["-vf", "palettegen", w.vg.runPath ++ "/palette.png"], rfl⟩
  · exact ⟨["ffmpeg", "-y", "-i", w.vg.runPath ++ "/generated_palette.png"],
      [w.vg.runPath ++ "/palette.png"], rfl⟩
  · rw [hacmd]
    rfl
  · rw [hacmd]
    simp
  · rw [hacmd]
    exact ⟨["ffmpeg", "-y"],
      ["-i", w.vg.runPath ++ "/frames/%09d.png",
       "-i", w.vg.runPath ++ "/palette.png",
       "-filter_complex", "paletteuse",
       w.vg.runPath ++ "/" ++ w.vg.name ++ ".gif"], rfl⟩
  · rw [hacmd]
    exact ⟨["ffmpeg", "-y", "-framerate", toString fr],
      ["-i", w.vg.runPath ++ "/palette.png",
       "-filter_complex", "paletteuse",
       w.vg.runPath ++ "/" ++ w.vg.name ++ ".gif"], rfl⟩
  · rw [hacmd]
    exact ⟨["ffmpeg", "-y", "-framerate", toString fr,
       "-i", w.vg.runPath ++ "/frames/%09d.png"],
      ["-filter_complex", "paletteuse",
       w.vg.runPath ++ "/" ++ w.vg.name ++ ".gif"], rfl⟩
  · rw [hacmd]
    exact ⟨["ffmpeg", "-y", "-framerate", toString fr,
       "-i", w.vg.runPath ++ "/frames/%09d.png",
       "-i", w.vg.runPath ++ "/palette.png"],
      [w.vg.runPath ++ "/" ++ w.vg.name ++ ".gif"], rfl⟩
  · rw [hacmd]
    rfl

/-- C6 witness on the sample world with framerate 10. -/
theorem claim_C6_encoder_commands_witness :
    sampleWorldAfterVideo.cmds
        = sampleWorld.cmds ++ [palettegenCmd sampleWorld.vg, assembleCmd sampleWorld.vg 10] ∧
    (palettegenCmd sampleWorld.vg).head? = some "ffmpeg" ∧
    "-y" ∈ palettegenCmd sampleWorld.vg ∧
    ["-i", sampleWorld.vg.runPath ++ "/generated_palette.png"] <:+: palettegenCmd sampleWorld.vg ∧
    ["-vf", "palettegen"] <:+: palettegenCmd sampleWorld.vg ∧
    (palettegenCmd sampleWorld.vg).getLast? = some (sampleWorld.vg.runPath ++ "/palette.png") ∧
    (assembleCmd sampleWorld.vg 10).head? = some "ffmpeg" ∧
    "-y" ∈ assembleCmd sampleWorld.vg 10 ∧
    ["-framerate", toString 10] <:+: assembleCmd sampleWorld.vg 10 ∧
    ["-i", sampleWorld.vg.runPath ++ "/frames/%09d.png"] <:+: assembleCmd sampleWorld.vg 10 ∧
    ["-i", sampleWorld.vg.runPath ++ "/palette.png"] <:+: assembleCmd sampleWorld.vg 10 ∧
    ["-filter_complex", "paletteuse"] <:+: assembleCmd sampleWorld.vg 10 ∧
    (assembleCmd sampleWorld.vg 10).getLast?
      = some (sampleWorld.vg.runPath ++ "/" ++ sampleWorld.vg.name ++ ".gif") :=
  claim_C6_encoder_commands spwOk 10 false sampleWorld sampleWorldAfterVideo rfl (by decide)
